import Mathlib

/-!
A shallow embedding of the Game-of-Life grid engine in
`src/game_of_life.rs` (the core of the `terminalcollective/website`
repository), together with verified properties of it.

Rust machine integers are modelled idealised: the `i32` coordinate type
`Coord` becomes `Int`, the `usize` dimensions become `Nat`.  No claim in
scope probes integer overflow, and every arithmetic step stays far below
the 32-bit bound on the grids the claims quantify over.
-/

/-- `struct Point { x: Coord, y: Coord }` with `type Coord = i32;` — the
coordinate type is written as literal `Int` here. -/
structure Point where
  x : Int
  y : Int
deriving DecidableEq, Repr

/-- `impl Add for Point`: componentwise vector sum. -/
def Point.add (p rhs : Point) : Point :=
  Point.mk (p.x + rhs.x) (p.y + rhs.y)

/-- `pub const NORTH: Point = Point::new(0, -1);` -/
def NORTH : Point := Point.mk 0 (-1)

/-- `pub const NORTH_EAST: Point = Point::new(1, -1);` -/
def NORTH_EAST : Point := Point.mk 1 (-1)

/-- `pub const EAST: Point = Point::new(1, 0);` -/
def EAST : Point := Point.mk 1 0

/-- `pub const SOUTH_EAST: Point = Point::new(1, 1);` -/
def SOUTH_EAST : Point := Point.mk 1 1

/-- `pub const SOUTH: Point = Point::new(0, 1);` -/
def SOUTH : Point := Point.mk 0 1

/-- `pub const SOUTH_WEST: Point = Point::new(-1, 1);` -/
def SOUTH_WEST : Point := Point.mk (-1) 1

/-- `pub const WEST: Point = Point::new(-1, 0);` -/
def WEST : Point := Point.mk (-1) 0

/-- `pub const NORTH_WEST: Point = Point::new(-1, -1);` -/
def NORTH_WEST : Point := Point.mk (-1) (-1)

/-- `pub const ORTHO_PLUS_DIR: [Point; 8]` — the 8 compass offsets. -/
def ORTHO_PLUS_DIR : List Point :=
  [NORTH, NORTH_EAST, EAST, SOUTH_EAST, SOUTH, SOUTH_WEST, WEST, NORTH_WEST]

/-- `enum CellState { Alive, Dead }`. -/
inductive CellState where
  | Alive : CellState
  | Dead : CellState
deriving DecidableEq, BEq, Repr

/-- `impl Display for CellState`: Dead writes `" "`, Alive writes `"0"`. -/
def CellState.render : CellState → String
  | CellState.Dead => " "
  | CellState.Alive => "0"

/-- `struct NeighbourState { dead: i32, alive: i32 }`. -/
structure NeighbourState where
  dead : Int
  alive : Int
deriving DecidableEq, Repr

/-- `pub struct Grid<T>` at `T = CellState`: width, height (`usize`) and the
row-major cell vector. -/
structure Grid where
  width : Nat
  height : Nat
  cells : List CellState
deriving DecidableEq, Repr

/-- `Grid::contains`: `p.x >= 0 && (p.x as usize) < self.width && p.y >= 0 &&
(p.y as usize) < self.height`. -/
def Grid.contains (g : Grid) (p : Point) : Bool :=
  decide (0 ≤ p.x ∧ p.x < (g.width : Int) ∧ 0 ≤ p.y ∧ p.y < (g.height : Int))

/-- `Grid::pos`: recovers a Point from a linear index,
`Point::new((p % self.width) as i32, (p / self.width) as i32)`. -/
def Grid.pos (g : Grid) (p : Nat) : Point :=
  Point.mk ((p % g.width : Nat) : Int) ((p / g.width : Nat) : Int)

/-- `Grid::idx`: `((self.width as i32) * p.y + p.x) as usize`. -/
def Grid.idx (g : Grid) (p : Point) : Nat :=
  ((g.width : Int) * p.y + p.x).toNat

/-- `Grid::try_get`: the bounds-checked lookup.  The inner `self[*p.as_ref()]`
is the `Index` impl, `&self.cells[self.idx(&pos)]`; a vector access out of
range is a Rust panic, modelled by the `Option`-valued list lookup (the
theorems below show it is always in range when reached). -/
def Grid.try_get (g : Grid) (p : Point) : Option CellState :=
  if g.contains p then g.cells[g.idx p]? else none

/-- `Grid::<CellState>::new_empty`: `width*height` cells, all Dead. -/
def Grid.new_empty (width height : Nat) : Grid :=
  Grid.mk width height (List.replicate (width * height) CellState.Dead)

/-- `Grid::<CellState>::new_random`: `width*height` cells, each drawn from
`fastrand::bool()`.  The process-wide random source is modelled as an
injected stream of booleans, one per drawn cell. -/
def Grid.new_random (width height : Nat) (rand : Nat → Bool) : Grid :=
  Grid.mk width height
    ((List.range (width * height)).map
      (fun i => if rand i then CellState.Alive else CellState.Dead))

/-- `impl Default for Grid<CellState>`: `Grid::new_empty(10, 10)`. -/
def Grid.default : Grid := Grid.new_empty 10 10

/-- `Grid::get_cell_state` (the `&self` receiver is unused by the source and
kept here as `_g`): the transition rule, matching on the live-neighbour
count ranges `0..=1`, `2..=3`, `4..=8`, the Dead/3 arm, and the catch-all
`(_, _) => *cell`. -/
def Grid.get_cell_state (_g : Grid) (cell : CellState) (state : NeighbourState) :
    CellState :=
  match cell with
  | CellState.Alive =>
      if 0 ≤ state.alive ∧ state.alive ≤ 1 then CellState.Dead
      else if 2 ≤ state.alive ∧ state.alive ≤ 3 then CellState.Alive
      else if 4 ≤ state.alive ∧ state.alive ≤ 8 then CellState.Dead
      else cell
  | CellState.Dead =>
      if state.alive = 3 then CellState.Alive else cell

/-- `Grid::get_neighbours`: the 8 compass offsets added to `point`, filtered
by `contains`. -/
def Grid.get_neighbours (g : Grid) (point : Point) : List Point :=
  (ORTHO_PLUS_DIR.map (fun d => point.add d)).filter (fun p => g.contains p)

/-- The loop body of `get_neighbours_state`: bump `alive` on `Some(Alive)`,
`dead` on `Some(Dead)`, skip `None`. -/
def NeighbourState.tally (s : NeighbourState) : Option CellState → NeighbourState
  | some CellState.Alive => NeighbourState.mk s.dead (s.alive + 1)
  | some CellState.Dead => NeighbourState.mk (s.dead + 1) s.alive
  | none => s

/-- `Grid::get_neighbours_state`: fold the tally over
`self.get_neighbours(point).map(|p| self.try_get(p))`, starting from 0/0. -/
def Grid.get_neighbours_state (g : Grid) (point : Point) : NeighbourState :=
  (((g.get_neighbours point).map (fun p => g.try_get p)).foldl
    NeighbourState.tally (NeighbourState.mk 0 0))

/-- `Grid::update_states`: `for (idx, &cell) in self.cells.iter().enumerate()`
computes each next cell from the *old* grid (`self` is only written after the
loop), then replaces `self.cells` and returns the Alive count of the new
cells.  The enumerate loop is rendered as a map over the index range, reading
the old cell at each index. -/
def Grid.update_states (g : Grid) : Grid × Nat :=
  let new_grid : List CellState :=
    (List.range g.cells.length).map (fun idx =>
      g.get_cell_state (g.cells.getD idx CellState.Dead)
        (g.get_neighbours_state (g.pos idx)))
  let g2 : Grid := Grid.mk g.width g.height new_grid
  (g2, (g2.cells.filter (fun c => c == CellState.Alive)).length)

/-- `impl Display for Grid<CellState>` as a character list: for each row,
the rendered cells `self.cells[w]` for `w` in `row*width..(row+1)*width`,
then `writeln!` appends a newline. -/
def Grid.renderChars (g : Grid) : List Char :=
  (List.range g.height).flatMap (fun row =>
    ((List.range g.width).map
        (fun i => g.cells.getD (row * g.width + i) CellState.Dead)).flatMap
      (fun c => c.render.data) ++ [Char.ofNat 10])

/-- The rendered text of a grid, as a `String`. -/
def Grid.render (g : Grid) : String := String.mk g.renderChars

/-! ## Helper lemmas -/

/-- The tally fold never decreases either counter. -/
theorem foldl_tally_le (l : List (Option CellState)) (s : NeighbourState) :
    s.alive ≤ (l.foldl NeighbourState.tally s).alive ∧
    s.dead ≤ (l.foldl NeighbourState.tally s).dead := by
  induction l generalizing s with
  | nil => exact ⟨le_refl _, le_refl _⟩
  | cons o t ih =>
    simp only [List.foldl_cons]
    have hstep : s.alive ≤ (NeighbourState.tally s o).alive ∧
        s.dead ≤ (NeighbourState.tally s o).dead := by
      cases o with
      | none => exact ⟨le_refl _, le_refl _⟩
      | some c => cases c <;> simp [NeighbourState.tally]
    have h := ih (NeighbourState.tally s o)
    exact ⟨le_trans hstep.1 h.1, le_trans hstep.2 h.2⟩

/-- When every entry of the list is `some`, the tally fold adds exactly the
list's length to the two counters combined. -/
theorem foldl_tally_sum (l : List (Option CellState)) (s : NeighbourState)
    (h : ∀ o ∈ l, o.isSome = true) :
    (l.foldl NeighbourState.tally s).alive +
      (l.foldl NeighbourState.tally s).dead =
      s.alive + s.dead + (l.length : Int) := by
  induction l generalizing s with
  | nil => simp
  | cons o t ih =>
    simp only [List.foldl_cons, List.length_cons]
    have ho : o.isSome = true := h o (by simp)
    have ht : ∀ o2 ∈ t, o2.isSome = true := fun o2 hm => h o2 (by simp [hm])
    rw [ih _ ht]
    cases o with
    | none => simp at ho
    | some c => cases c <;> simp [NeighbourState.tally] <;> omega

/-- Every point produced by `get_neighbours` passes `contains`. -/
theorem mem_get_neighbours_contains (g : Grid) (p q : Point)
    (h : q ∈ g.get_neighbours p) : g.contains q = true :=
  (List.mem_filter.mp h).2

/-- Under the length invariant, `idx` of a contained point is in range. -/
theorem idx_lt_length (g : Grid) (q : Point)
    (hc : g.contains q = true) (hlen : g.cells.length = g.width * g.height) :
    g.idx q < g.cells.length := by
  simp only [Grid.contains, decide_eq_true_eq] at hc
  obtain ⟨hx0, hxw, hy0, hyh⟩ := hc
  have hA0 : 0 ≤ (g.width : Int) * q.y + q.x :=
    add_nonneg (mul_nonneg (by positivity) hy0) hx0
  have hy1 : q.y ≤ (g.height : Int) - 1 := by omega
  have hw0 : (0 : Int) ≤ (g.width : Int) := by positivity
  have hmul : (g.width : Int) * q.y ≤ (g.width : Int) * ((g.height : Int) - 1) :=
    mul_le_mul_of_nonneg_left hy1 hw0
  have key : (g.width : Int) * q.y + q.x < ((g.width * g.height : Nat) : Int) := by
    push_cast
    nlinarith [hmul]
  rw [hlen]
  unfold Grid.idx
  have hwpos : g.width ≠ 0 := by omega
  have hhpos : g.height ≠ 0 := by omega
  exact (Int.toNat_lt' (Nat.mul_ne_zero hwpos hhpos)).mpr key

/-- Under the length invariant, `try_get` of a contained point is the in-range
vector read. -/
theorem try_get_eq_getElem (g : Grid) (q : Point)
    (hc : g.contains q = true) (hlen : g.cells.length = g.width * g.height) :
    g.try_get q = g.cells[g.idx q]? ∧ (g.try_get q).isSome = true := by
  have hlt := idx_lt_length g q hc hlen
  unfold Grid.try_get
  rw [if_pos hc, List.getElem?_eq_getElem hlt]
  exact ⟨rfl, rfl⟩

/-! ## Claim theorems -/

/-- C1: for every current cell state `s` and every alive-neighbour count `n`
with `0 ≤ n ≤ 8`, `get_cell_state` returns exactly the table's next state —
Dead on Alive/0–1 (underpopulation), Alive on Alive/2–3 (stable), Dead on
Alive/4–8 (overpopulation), Alive on Dead/3 (reproduction), Dead on Dead with
any other count — and the result never depends on the dead-neighbour count:
two tallies with the same `alive` field yield the same next state. -/
theorem get_cell_state_table (g : Grid) (s : CellState) (n d d2 : Int)
    (h0 : 0 ≤ n) (h8 : n ≤ 8) :
    g.get_cell_state s (NeighbourState.mk d n) =
      g.get_cell_state s (NeighbourState.mk d2 n) ∧
    (s = CellState.Alive → n ≤ 1 →
      g.get_cell_state s (NeighbourState.mk d n) = CellState.Dead) ∧
    (s = CellState.Alive → 2 ≤ n → n ≤ 3 →
      g.get_cell_state s (NeighbourState.mk d n) = CellState.Alive) ∧
    (s = CellState.Alive → 4 ≤ n →
      g.get_cell_state s (NeighbourState.mk d n) = CellState.Dead) ∧
    (s = CellState.Dead → n = 3 →
      g.get_cell_state s (NeighbourState.mk d n) = CellState.Alive) ∧
    (s = CellState.Dead → n ≠ 3 →
      g.get_cell_state s (NeighbourState.mk d n) = CellState.Dead) := by
  cases s <;> interval_cases n <;> norm_num [Grid.get_cell_state]

/-- Witness for C1: at `s = Alive`, `n = 3`, the rule is insensitive to dead
counts 0 versus 7. -/
theorem get_cell_state_table_witness :
    ((0 : Int) ≤ 3 ∧ (3 : Int) ≤ 8) ∧
    (Grid.new_empty 0 0).get_cell_state CellState.Alive (NeighbourState.mk 0 3) =
      (Grid.new_empty 0 0).get_cell_state CellState.Alive (NeighbourState.mk 7 3) :=
  ⟨⟨by norm_num, by norm_num⟩,
    (get_cell_state_table (Grid.new_empty 0 0) CellState.Alive 3 0 7
      (by norm_num) (by norm_num)).1⟩

/-- C2: a single `update_states` call replaces the cell sequence so that the
new cell at every index `i` is `get_cell_state` of the old cell at `i` and the
neighbour tally of the pre-call snapshot (synchronous semantics — the rule
never reads a partially updated neighbour), and the returned number is exactly
the count of Alive cells after the replacement. -/
theorem update_states_synchronous (g : Grid) :
    (g.update_states).1.width = g.width ∧
    (g.update_states).1.height = g.height ∧
    (g.update_states).1.cells.length = g.cells.length ∧
    (∀ i, i < g.cells.length →
      (g.update_states).1.cells[i]? =
        some (g.get_cell_state (g.cells.getD i CellState.Dead)
          (g.get_neighbours_state (g.pos i)))) ∧
    (g.update_states).2 = (g.update_states).1.cells.count CellState.Alive := by
  refine ⟨rfl, rfl, by simp [Grid.update_states], ?_, ?_⟩
  · intro i hi
    simp [Grid.update_states, List.getElem?_map, List.getElem?_range, hi]
  · simp [Grid.update_states, List.count, List.countP_eq_length_filter]

/-- Witness for C2: the synchronous step on the default 10×10 grid, checked at
index 0. -/
theorem update_states_synchronous_witness :
    (0 < Grid.default.cells.length) ∧
    (Grid.default.update_states).1.cells[0]? =
      some (Grid.default.get_cell_state (Grid.default.cells.getD 0 CellState.Dead)
        (Grid.default.get_neighbours_state (Grid.default.pos 0))) :=
  ⟨by decide, (update_states_synchronous Grid.default).2.2.2.1 0 (by decide)⟩

/-- An interior point (not touching any edge) has all 8 compass neighbours in
bounds. -/
theorem get_neighbours_length_interior (g : Grid) (p : Point)
    (hx1 : 0 < p.x) (hx2 : p.x < (g.width : Int) - 1)
    (hy1 : 0 < p.y) (hy2 : p.y < (g.height : Int) - 1) :
    (g.get_neighbours p).length = 8 := by
  unfold Grid.get_neighbours
  have hall : ∀ q ∈ ORTHO_PLUS_DIR.map (fun d => p.add d),
      (fun r => g.contains r) q = true := by
    intro q hq
    obtain ⟨d, hd, rfl⟩ := List.mem_map.mp hq
    simp only [ORTHO_PLUS_DIR, List.mem_cons, List.not_mem_nil, or_false] at hd
    rcases hd with rfl | rfl | rfl | rfl | rfl | rfl | rfl | rfl <;>
      simp only [Grid.contains, Point.add, NORTH, NORTH_EAST, EAST, SOUTH_EAST,
        SOUTH, SOUTH_WEST, WEST, NORTH_WEST, decide_eq_true_eq] <;>
      refine ⟨by omega, by omega, by omega, by omega⟩
  rw [List.filter_eq_self.mpr hall]
  simp [ORTHO_PLUS_DIR]

/-- If some compass neighbour of `p` is out of bounds, `p` has fewer than 8
in-bounds neighbours. -/
theorem get_neighbours_length_lt (g : Grid) (p d : Point)
    (hd : d ∈ ORTHO_PLUS_DIR) (hcf : g.contains (p.add d) = false) :
    (g.get_neighbours p).length < 8 := by
  unfold Grid.get_neighbours
  have hlt : ((ORTHO_PLUS_DIR.map (fun e => p.add e)).filter
      (fun q => g.contains q)).length <
      (ORTHO_PLUS_DIR.map (fun e => p.add e)).length :=
    List.length_filter_lt_length_iff_exists.mpr
      ⟨p.add d, List.mem_map_of_mem _ hd, by simp [hcf]⟩
  simpa [ORTHO_PLUS_DIR] using hlt

/-- The cell itself is never one of its own neighbours: every compass offset
moves the point. -/
theorem self_not_mem_get_neighbours (g : Grid) (p : Point) :
    p ∉ g.get_neighbours p := by
  obtain ⟨px, py⟩ := p
  intro hmem
  obtain ⟨d, hd, heq⟩ := List.mem_map.mp (List.mem_filter.mp hmem).1
  simp only [ORTHO_PLUS_DIR, List.mem_cons, List.not_mem_nil, or_false] at hd
  rcases hd with rfl | rfl | rfl | rfl | rfl | rfl | rfl | rfl <;>
    simp only [Point.add, NORTH, NORTH_EAST, EAST, SOUTH_EAST, SOUTH,
      SOUTH_WEST, WEST, NORTH_WEST, Point.mk.injEq] at heq <;> omega

/-- C3: `get_neighbours_state` returns non-negative counts whose sum is the
number of in-bounds compass neighbours of `p`, which is at most 8, is exactly
8 for interior in-bounds points, and is strictly below 8 for in-bounds points
touching an edge; the cell at `p` itself is never among the tallied
neighbours. -/
theorem get_neighbours_state_tally (g : Grid) (p : Point)
    (hlen : g.cells.length = g.width * g.height) :
    0 ≤ (g.get_neighbours_state p).alive ∧
    0 ≤ (g.get_neighbours_state p).dead ∧
    (g.get_neighbours_state p).alive + (g.get_neighbours_state p).dead =
      ((g.get_neighbours p).length : Int) ∧
    (g.get_neighbours p).length ≤ 8 ∧
    (0 < p.x → p.x < (g.width : Int) - 1 → 0 < p.y → p.y < (g.height : Int) - 1 →
      (g.get_neighbours p).length = 8) ∧
    (g.contains p = true →
      (p.x = 0 ∨ p.x = (g.width : Int) - 1 ∨ p.y = 0 ∨ p.y = (g.height : Int) - 1) →
      (g.get_neighbours p).length < 8) ∧
    p ∉ g.get_neighbours p := by
  have hall : ∀ o ∈ (g.get_neighbours p).map (fun q => g.try_get q),
      o.isSome = true := by
    intro o ho
    obtain ⟨q, hq, rfl⟩ := List.mem_map.mp ho
    exact (try_get_eq_getElem g q (mem_get_neighbours_contains g p q hq) hlen).2
  have hle := foldl_tally_le ((g.get_neighbours p).map (fun q => g.try_get q))
    (NeighbourState.mk 0 0)
  have hsum := foldl_tally_sum ((g.get_neighbours p).map (fun q => g.try_get q))
    (NeighbourState.mk 0 0) hall
  have hlen8 : (g.get_neighbours p).length ≤ 8 := by
    unfold Grid.get_neighbours
    exact le_trans (List.length_filter_le _ _) (by simp [ORTHO_PLUS_DIR])
  refine ⟨hle.1, hle.2, ?_, hlen8, ?_, ?_, self_not_mem_get_neighbours g p⟩
  · simpa [Grid.get_neighbours_state] using hsum
  · intro hx1 hx2 hy1 hy2
    exact get_neighbours_length_interior g p hx1 hx2 hy1 hy2
  · intro hc hedge
    simp only [Grid.contains, decide_eq_true_eq] at hc
    rcases hedge with hx | hx | hy | hy
    · refine get_neighbours_length_lt g p WEST (by simp [ORTHO_PLUS_DIR]) ?_
      simp only [Grid.contains, Point.add, WEST, decide_eq_false_iff_not,
        not_and, not_lt]
      omega
    · refine get_neighbours_length_lt g p EAST (by simp [ORTHO_PLUS_DIR]) ?_
      simp only [Grid.contains, Point.add, EAST, decide_eq_false_iff_not,
        not_and, not_lt]
      omega
    · refine get_neighbours_length_lt g p NORTH (by simp [ORTHO_PLUS_DIR]) ?_
      simp only [Grid.contains, Point.add, NORTH, decide_eq_false_iff_not,
        not_and, not_lt]
      omega
    · refine get_neighbours_length_lt g p SOUTH (by simp [ORTHO_PLUS_DIR]) ?_
      simp only [Grid.contains, Point.add, SOUTH, decide_eq_false_iff_not,
        not_and, not_lt]
      omega

/-- Witness for C3 on the empty 3×3 grid at the interior point (1,1): the
tally sums to the 8 in-bounds neighbours and the point is not its own
neighbour. -/
theorem get_neighbours_state_tally_witness :
    (Grid.new_empty 3 3).cells.length =
      (Grid.new_empty 3 3).width * (Grid.new_empty 3 3).height ∧
    ((Grid.new_empty 3 3).get_neighbours_state (Point.mk 1 1)).alive +
      ((Grid.new_empty 3 3).get_neighbours_state (Point.mk 1 1)).dead =
      (((Grid.new_empty 3 3).get_neighbours (Point.mk 1 1)).length : Int) ∧
    Point.mk 1 1 ∉ (Grid.new_empty 3 3).get_neighbours (Point.mk 1 1) :=
  ⟨by decide,
   (get_neighbours_state_tally (Grid.new_empty 3 3) (Point.mk 1 1)
     (by decide)).2.2.1,
   (get_neighbours_state_tally (Grid.new_empty 3 3) (Point.mk 1 1)
     (by decide)).2.2.2.2.2.2⟩

/-- The 3×3 grid of the C4 scenario: all Dead except (0,0) Alive. -/
def corner3x3 : Grid :=
  Grid.mk 3 3
    [CellState.Alive, CellState.Dead, CellState.Dead,
     CellState.Dead, CellState.Dead, CellState.Dead,
     CellState.Dead, CellState.Dead, CellState.Dead]

/-- C4 counterexample: on the 3×3 grid with only (0,0) Alive, the tally at
(0,0) is not `alive = 0, dead = 2` — the corner has 3 in-bounds neighbours,
all Dead, so `dead = 3`. -/
theorem corner3x3_dead_count_not_two :
    ¬ ((corner3x3.get_neighbours_state (Point.mk 0 0)).alive = 0 ∧
       (corner3x3.get_neighbours_state (Point.mk 0 0)).dead = 2) := by
  decide

/-- C4 amended: the corner (0,0) of the 3×3 grid has exactly 3 in-bounds
neighbours, itself excluded; the tally there is `alive = 0, dead = 3`; and one
`update_states` call turns (0,0) Dead and leaves the whole grid all-Dead. -/
theorem corner3x3_step_all_dead :
    (corner3x3.get_neighbours (Point.mk 0 0)).length = 3 ∧
    Point.mk 0 0 ∉ corner3x3.get_neighbours (Point.mk 0 0) ∧
    (corner3x3.get_neighbours_state (Point.mk 0 0)).alive = 0 ∧
    (corner3x3.get_neighbours_state (Point.mk 0 0)).dead = 3 ∧
    (corner3x3.update_states).1.cells = List.replicate 9 CellState.Dead := by
  decide

/-- C5: `try_get p` yields the stored cell at row-major index
`width * p.y + p.x` exactly when `contains p` holds — and the underlying
vector access is then in range — while every other point, including those
with negative coordinates, yields no value with no out-of-range access. -/
theorem try_get_spec (g : Grid) (p : Point)
    (hlen : g.cells.length = g.width * g.height) :
    (g.contains p = true →
      g.width * p.y.toNat + p.x.toNat < g.cells.length ∧
      g.try_get p = g.cells[g.width * p.y.toNat + p.x.toNat]? ∧
      (g.try_get p).isSome = true) ∧
    (g.contains p = false → g.try_get p = none) := by
  constructor
  · intro hc
    have hcp := hc
    simp only [Grid.contains, decide_eq_true_eq] at hcp
    obtain ⟨hx0, hxw, hy0, hyh⟩ := hcp
    have hidx : g.idx p = g.width * p.y.toNat + p.x.toNat := by
      have hcast : (g.width : Int) * p.y + p.x =
          ((g.width * p.y.toNat + p.x.toNat : Nat) : Int) := by
        push_cast
        rw [Int.toNat_of_nonneg hy0, Int.toNat_of_nonneg hx0]
      unfold Grid.idx
      rw [hcast, Int.toNat_natCast]
    have hget := try_get_eq_getElem g p hc hlen
    refine ⟨?_, ?_, hget.2⟩
    · rw [← hidx]
      exact idx_lt_length g p hc hlen
    · rw [← hidx]
      exact hget.1
  · intro hc
    simp [Grid.try_get, hc]

/-- Witness for C5 on the empty 2×2 grid at (1,0) (contained) — the lookup is
the in-range read at index 1 — and the out-of-bounds claim at that point is
covered by the contained branch being taken. -/
theorem try_get_spec_witness :
    (Grid.new_empty 2 2).cells.length =
      (Grid.new_empty 2 2).width * (Grid.new_empty 2 2).height ∧
    (((Grid.new_empty 2 2).contains (Point.mk 1 0) = true →
      (Grid.new_empty 2 2).width * (Point.mk 1 0).y.toNat +
          (Point.mk 1 0).x.toNat < (Grid.new_empty 2 2).cells.length ∧
      (Grid.new_empty 2 2).try_get (Point.mk 1 0) =
        (Grid.new_empty 2 2).cells[(Grid.new_empty 2 2).width *
          (Point.mk 1 0).y.toNat + (Point.mk 1 0).x.toNat]? ∧
      ((Grid.new_empty 2 2).try_get (Point.mk 1 0)).isSome = true) ∧
    ((Grid.new_empty 2 2).contains (Point.mk 1 0) = false →
      (Grid.new_empty 2 2).try_get (Point.mk 1 0) = none)) :=
  ⟨by decide, try_get_spec (Grid.new_empty 2 2) (Point.mk 1 0) (by decide)⟩

/-- C6: `new_empty`, `new_random` and `default` all establish
`cells.length = width * height` with the requested dimensions, and
`update_states` keeps the invariant and never changes width or height. -/
theorem grid_dimensions_invariant (w h : Nat) (rand : Nat → Bool) (g : Grid) :
    (Grid.new_empty w h).width = w ∧
    (Grid.new_empty w h).height = h ∧
    (Grid.new_empty w h).cells.length = w * h ∧
    (Grid.new_random w h rand).width = w ∧
    (Grid.new_random w h rand).height = h ∧
    (Grid.new_random w h rand).cells.length = w * h ∧
    Grid.default.cells.length = Grid.default.width * Grid.default.height ∧
    (g.update_states).1.width = g.width ∧
    (g.update_states).1.height = g.height ∧
    (g.cells.length = g.width * g.height →
      (g.update_states).1.cells.length =
        (g.update_states).1.width * (g.update_states).1.height) := by
  refine ⟨rfl, rfl, by simp [Grid.new_empty], rfl, rfl,
    by simp [Grid.new_random], by decide, rfl, rfl, ?_⟩
  intro hinv
  simp [Grid.update_states, hinv]

/-- Witness for C6 at 2×3 dimensions, a constant random stream, and one step
on the empty 2×3 grid. -/
theorem grid_dimensions_invariant_witness :
    (Grid.new_empty 2 3).cells.length =
      (Grid.new_empty 2 3).width * (Grid.new_empty 2 3).height ∧
    ((Grid.new_empty 2 3).update_states).1.cells.length =
      ((Grid.new_empty 2 3).update_states).1.width *
        ((Grid.new_empty 2 3).update_states).1.height :=
  ⟨by decide,
   (grid_dimensions_invariant 2 3 (fun _ => true)
     (Grid.new_empty 2 3)).2.2.2.2.2.2.2.2.2 (by decide)⟩

/-- Flat-mapping a constant singleton over an index range yields a constant
row of that length. -/
theorem flatMap_const_singleton (n : Nat) (c : Char) :
    ((List.range n).flatMap fun _ => [c]) = List.replicate n c := by
  induction n with
  | zero => simp
  | succ m ih =>
    rw [List.range_succ]
    simp only [List.flatMap_append, ih, List.flatMap_cons, List.flatMap_nil,
      List.append_nil]
    rw [← List.replicate_succ', List.replicate_succ]

/-- C7: a zero-sized grid (width or height 0) is valid and inert: it has no
cells, `update_states` performs no cell computation (the index loop is empty,
so `pos` — which divides by the width — is never evaluated), returns 0 and
leaves the grid unchanged; lookups yield no value; and rendering emits only
the per-row line breaks with no cell glyph (the empty string when the height
is 0). -/
theorem zero_sized_grid_safe (w h : Nat) (hz : w = 0 ∨ h = 0) :
    (Grid.new_empty w h).cells = [] ∧
    (Grid.new_empty w h).update_states = (Grid.new_empty w h, 0) ∧
    (∀ p : Point, (Grid.new_empty w h).try_get p = none) ∧
    (Grid.new_empty w h).renderChars = List.replicate h (Char.ofNat 10) ∧
    (h = 0 → (Grid.new_empty w h).render = "") := by
  have hwh : w * h = 0 := by rcases hz with rfl | rfl <;> simp
  refine ⟨by simp [Grid.new_empty, hwh],
    by simp [Grid.update_states, Grid.new_empty, hwh], ?_, ?_, ?_⟩
  · intro p
    have hcf : (Grid.new_empty w h).contains p = false := by
      rcases hz with rfl | rfl <;>
        simp only [Grid.contains, Grid.new_empty, decide_eq_false_iff_not,
          not_and, not_lt] <;> intros <;> omega
    simp [Grid.try_get, hcf]
  · rcases hz with rfl | rfl
    · simp only [Grid.renderChars, Grid.new_empty, List.range_zero,
        List.map_nil, List.flatMap_nil, List.nil_append]
      exact flatMap_const_singleton h (Char.ofNat 10)
    · simp [Grid.renderChars, Grid.new_empty]
  · intro h0
    subst h0
    rfl

/-- Witness for C7 on the 0×2 grid. -/
theorem zero_sized_grid_safe_witness :
    ((0 : Nat) = 0 ∨ (2 : Nat) = 0) ∧
    (Grid.new_empty 0 2).cells = [] ∧
    (Grid.new_empty 0 2).update_states = (Grid.new_empty 0 2, 0) ∧
    (Grid.new_empty 0 2).try_get (Point.mk (-1) 5) = none ∧
    (Grid.new_empty 0 2).renderChars = List.replicate 2 (Char.ofNat 10) :=
  ⟨Or.inl rfl,
   (zero_sized_grid_safe 0 2 (Or.inl rfl)).1,
   (zero_sized_grid_safe 0 2 (Or.inl rfl)).2.1,
   (zero_sized_grid_safe 0 2 (Or.inl rfl)).2.2.1 (Point.mk (-1) 5),
   (zero_sized_grid_safe 0 2 (Or.inl rfl)).2.2.2.1⟩

/-- The glyph each cell state renders to: `0` (code 48) for Alive, a space
(code 32) for Dead. -/
def glyphOf : CellState → Char
  | CellState.Alive => Char.ofNat 48
  | CellState.Dead => Char.ofNat 32

/-- Line `y` of the expected rendering: row `y` of the cells (row-major),
one glyph per cell. -/
def specLine (g : Grid) (y : Nat) : List Char :=
  ((g.cells.drop (y * g.width)).take g.width).map glyphOf

/-- Rendering each cell of a row is exactly the row's glyph sequence. -/
theorem flatMap_render_eq_map_glyphOf (l : List CellState) :
    l.flatMap (fun c => c.render.data) = l.map glyphOf := by
  induction l with
  | nil => simp
  | cons c t ih =>
    simp only [List.flatMap_cons, List.map_cons, ih]
    cases c <;> rfl

/-- Newline-terminated blocks built from newline-free lines contain one
newline per line. -/
theorem count_newline_flatMap (L : List Nat) (f : Nat → List Char)
    (hf : ∀ y, Char.ofNat 10 ∉ f y) :
    (L.flatMap (fun y => f y ++ [Char.ofNat 10])).count (Char.ofNat 10) =
      L.length := by
  induction L with
  | nil => simp
  | cons a t ih =>
    simp only [List.flatMap_cons, List.count_append, List.length_cons, ih]
    rw [List.count_eq_zero.mpr (hf a)]
    simp
    omega

/-- C8: for a grid satisfying the length invariant, the rendered text is the
concatenation, over the `height` rows in order, of that row's `width` cells as
glyphs (row-major) followed by one line break; every line has exactly `width`
characters, each one of the two fixed glyphs (`0` for Alive, space for Dead),
and the text has exactly `height` line breaks. -/
theorem render_shape (g : Grid)
    (hlen : g.cells.length = g.width * g.height) :
    g.render.data =
      (List.range g.height).flatMap
        (fun y => specLine g y ++ [Char.ofNat 10]) ∧
    (∀ y, y < g.height → (specLine g y).length = g.width) ∧
    (∀ y c, c ∈ specLine g y → c = Char.ofNat 48 ∨ c = Char.ofNat 32) ∧
    g.render.data.count (Char.ofNat 10) = g.height := by
  have hbound : ∀ row, row < g.height →
      row * g.width + g.width ≤ g.cells.length := by
    intro row hr
    have h1 : (row + 1) * g.width ≤ g.height * g.width :=
      Nat.mul_le_mul_right _ (by omega)
    calc row * g.width + g.width = (row + 1) * g.width := by ring
      _ ≤ g.height * g.width := h1
      _ = g.width * g.height := Nat.mul_comm _ _
      _ = g.cells.length := hlen.symm
  have hrowlist : ∀ row, row < g.height →
      (List.range g.width).map
          (fun i => g.cells.getD (row * g.width + i) CellState.Dead) =
        (g.cells.drop (row * g.width)).take g.width := by
    intro row hr
    have hb := hbound row hr
    apply List.ext_getElem
    · simp
      omega
    · intro i h1 h2
      simp only [List.getElem_map, List.getElem_range, List.getElem_take,
        List.getElem_drop]
      rw [List.getD_eq_getElem]
  have hglyph : ∀ y c, c ∈ specLine g y →
      c = Char.ofNat 48 ∨ c = Char.ofNat 32 := by
    intro y c hc
    obtain ⟨cell, _, rfl⟩ := List.mem_map.mp hc
    cases cell
    · exact Or.inl rfl
    · exact Or.inr rfl
  have hmain : g.render.data =
      (List.range g.height).flatMap
        (fun y => specLine g y ++ [Char.ofNat 10]) := by
    show g.renderChars = _
    unfold Grid.renderChars
    apply List.flatMap_congr
    intro row hrow
    rw [hrowlist row (List.mem_range.mp hrow), flatMap_render_eq_map_glyphOf]
    rfl
  refine ⟨hmain, ?_, hglyph, ?_⟩
  · intro y hy
    have hb := hbound y hy
    simp only [specLine, List.length_map, List.length_take, List.length_drop]
    omega
  · rw [hmain]
    have hnl : ∀ y, Char.ofNat 10 ∉ specLine g y := by
      intro y hmem
      rcases hglyph y _ hmem with h | h <;> exact absurd h (by decide)
    rw [count_newline_flatMap (List.range g.height) (specLine g) hnl]
    exact List.length_range g.height

/-- Witness for C8 on the empty 2×2 grid: two line breaks for two rows. -/
theorem render_shape_witness :
    (Grid.new_empty 2 2).cells.length =
      (Grid.new_empty 2 2).width * (Grid.new_empty 2 2).height ∧
    (Grid.new_empty 2 2).render.data.count (Char.ofNat 10) =
      (Grid.new_empty 2 2).height :=
  ⟨by decide, (render_shape (Grid.new_empty 2 2) (by decide)).2.2.2⟩

/-- The 3×3 grid whose only Alive cells are a 2×2 block in the top-left
corner. -/
def block3x3 : Grid :=
  Grid.mk 3 3
    [CellState.Alive, CellState.Alive, CellState.Dead,
     CellState.Alive, CellState.Alive, CellState.Dead,
     CellState.Dead, CellState.Dead, CellState.Dead]

/-- C9: the 2×2 corner block on a 3×3 grid is a still life — one
`update_states` call leaves the cell sequence identical. -/
theorem block3x3_still_life :
    (block3x3.update_states).1.cells = block3x3.cells := by
  decide

/-- C10: the two rendering glyphs are concretely the single character `0` for
Alive and the single space for Dead, and the cell-state rendering can produce
nothing else (in particular none of the emoji the source's display test
expects). -/
theorem cellstate_render_glyphs :
    CellState.render CellState.Alive = "0" ∧
    CellState.render CellState.Dead = " " ∧
    (∀ c : CellState, c.render = "0" ∨ c.render = " ") ∧
    (∀ c : CellState, c.render.length = 1) := by
  refine ⟨rfl, rfl, ?_, ?_⟩
  · intro c
    cases c
    · exact Or.inl rfl
    · exact Or.inr rfl
  · intro c
    cases c <;> rfl
